import Mathlib

/-!
A shallow embedding of the tattoy-plugin renderer
(`src/crates/tattoy-plugin/src/{renderer.rs, main.rs, lib.rs}`): the terminal
snapshot model, the active-emote registry, the compositor, the frame
scheduler and the two protocol boundaries, together with theorems about
them.

Conventions of the embedding:
* Rust machine integers become `Nat`, with an explicit `% 2^32` wherever
  u32 wrap-around matters (release-build semantics of overflow).
* Monotonic instants (`std::time::Instant`) become `Nat` nanosecond counts;
  the frame scheduler's timing model uses `Nat` microsecond counts, matching
  the microsecond constants of the source.
* Fallible Rust code (`Result`, plus panics from `todo!()` / `unreachable!()`)
  becomes `Except`.
* Network and serde calls (`reqwest::get`, `serde_json::from_str`) are
  external effects and are passed in as explicit function parameters.
-/

namespace TattoyPlugin

/-- Number of microseconds in a second (`renderer.rs` line 7). -/
def ONE_MICROSECOND : ℕ := 1000000

/-- The target frame rate for renders sent to Tattoy (`renderer.rs` line 10). -/
def TARGET_FRAME_RATE : ℕ := 30

/-- The largest value representable in a Rust `u32`. -/
def U32_MAX : ℕ := 4294967295

/-- The modulus of Rust `u32` wrap-around arithmetic. -/
def U32_MOD : ℕ := 4294967296

/-- The active-emote time to live, `Duration::from_secs(10)` from
`Plugin::cleanup`, expressed in nanoseconds (instants are modelled as
nanosecond counts). -/
def TTL_NANOSECONDS : ℕ := 10000000000

/-- An RGBA quadruple of 8-bit channel values. -/
abbrev Rgba : Type := ℕ × ℕ × ℕ × ℕ

/-- One cell of the user's terminal, from the `tattoy_protocol` crate:
0-based coordinates, a character and (modelled only as far as the renderer
reads it) its colour. The renderer reads only `coordinates` and
`character`. -/
structure Cell where
  coordinates : ℕ × ℕ
  character : Char
deriving DecidableEq

/-- The current state of the Tattoy user's terminal (`struct TTY`,
`renderer.rs` lines 13-20). `size` is `(columns, rows)`. -/
structure TTY where
  size : ℕ × ℕ
  cursor_position : ℕ × ℕ
  cells : List Cell
deriving DecidableEq

/-- A decoded bitmap (`image::DynamicImage`) in row-major order. The claims
settled here depend only on an image's dimensions and on the coordinates of
emitted pixels, never on resampled channel values. -/
structure Image where
  width : ℕ
  height : ℕ
  data : List Rgba
deriving DecidableEq

/-- Reading one pixel of a bitmap (`GenericImageView::get_pixel`), row-major. -/
def get_pixel (img : Image) (x y : ℕ) : Rgba :=
  img.data.getD (y * img.width + x) (0, 0, 0, 0)

/-- `struct ActiveEmote` (`renderer.rs` lines 22-28): the pattern to find,
the monotonic creation instant in nanoseconds, and the cached image. -/
structure ActiveEmote where
  regexish : String
  timestamp : ℕ
  image : Image
deriving DecidableEq

/-- An output pixel (`tattoy_protocol::Pixel`): device-pixel coordinates and
an RGBA colour of normalized channel values, modelled in `ℚ` (the source
uses `f32`; every channel produced here is `c / 255` for an 8-bit `c`, which
`f32` represents without the claims below depending on rounding). -/
structure Pixel where
  coordinates : ℕ × ℕ
  color : ℚ × ℚ × ℚ × ℚ
deriving DecidableEq

/-- A message from the companion Twitch bot (`lib.rs` lines 3-8). -/
structure BotMessage where
  username : String
  regexish : String
  emote : String
deriving DecidableEq

/-- The inbound host protocol, `tattoy_protocol::PluginInputMessages`
(an external crate). It is declared `#[non_exhaustive]` upstream, so the
host's message set may grow; the open-endedness is modelled by the extra
`UnknownFutureVariant` constructor, which is what the source's `_` match arm
receives. `TTYResize`'s payload is irrelevant here because the source matches
it with `TTYResize { .. }`. -/
inductive PluginInputMessages where
  | PTYUpdate (size : ℕ × ℕ) (cells : List Cell) (cursor : ℕ × ℕ)
  | TTYResize
  | UnknownFutureVariant
deriving DecidableEq

/-- Failure of `Plugin::get_emote_image` (`renderer.rs` lines 208-216):
either the `reqwest::get` network request fails or
`image::load_from_memory_with_format` rejects the payload. -/
inductive FetchError where
  | requestFailed
  | decodeFailed
deriving DecidableEq

/-- A decode failure of `serde_json::from_str` on one protocol line. -/
inductive DecodeError where
  | malformed
deriving DecidableEq

/-- The whole plugin state (`struct Plugin`, `renderer.rs` lines 30-41).
`global_emotes` models the `utils::EmoteIDs` hash map as an association
list with unique keys (exact-match lookup); `last_frame_tick` is a
microsecond instant, used only by the scheduler model below. -/
structure Plugin where
  tty : TTY
  global_emotes : List (String × String)
  active_emotes : List ActiveEmote
  output : List Pixel
  last_frame_tick : ℕ
deriving DecidableEq

/-- Rust `f64::round` (round half away from zero) restricted to the
nonnegative values that occur in `resize_dimensions`, over exact rationals. -/
def rustRound (q : ℚ) : ℤ := ⌊q + 1 / 2⌋

/-- The `ratio` local of the `image` crate's `resize_dimensions`:
`f64::min(nwidth / width, nheight / height)`, in exact `ℚ`. -/
def resize_ratio (width height nwidth nheight : ℕ) : ℚ :=
  min ((nwidth : ℚ) / (width : ℚ)) ((nheight : ℚ) / (height : ℚ))

/-- The `nw` local of `resize_dimensions`: the scaled, rounded width,
clamped below by 1. -/
def resize_nw (width height nwidth nheight : ℕ) : ℤ :=
  max (rustRound ((width : ℚ) * resize_ratio width height nwidth nheight)) 1

/-- The `nh` local of `resize_dimensions`: the scaled, rounded height,
clamped below by 1. -/
def resize_nh (width height nwidth nheight : ℕ) : ℤ :=
  max (rustRound ((height : ℚ) * resize_ratio width height nwidth nheight)) 1

/-- The dimension computation of `image::DynamicImage::resize`, i.e. the
`image` crate's `resize_dimensions(width, height, nwidth, nheight, false)`:
the aspect-ratio-preserving fit inside the `(nwidth, nheight)` bounding box.
Both dimensions are scaled by `min (nwidth/width) (nheight/height)`, rounded,
clamped below by 1, with fallback branches when a result exceeds `u32::MAX`
(the source's `as u32` saturating cast is the `min _ U32_MAX`). The source
computes in `f64`; the embedding computes in exact `ℚ` (source images have
positive dimensions, so no division by zero arises on reachable inputs). -/
def resize_dimensions (width height nwidth nheight : ℕ) : ℕ × ℕ :=
  if (U32_MAX : ℤ) < resize_nw width height nwidth nheight then
    (U32_MAX,
      (min (max (rustRound ((height : ℚ) * ((U32_MAX : ℚ) / (width : ℚ)))) 1)
        (U32_MAX : ℤ)).toNat)
  else if (U32_MAX : ℤ) < resize_nh width height nwidth nheight then
    ((min (max (rustRound ((width : ℚ) * ((U32_MAX : ℚ) / (height : ℚ)))) 1)
        (U32_MAX : ℤ)).toNat,
      U32_MAX)
  else
    ((resize_nw width height nwidth nheight).toNat,
      (resize_nh width height nwidth nheight).toNat)

/-- `image::DynamicImage::resize(nwidth, nheight, Lanczos3)`: produces an
image whose dimensions are `resize_dimensions` of the inputs. The Lanczos3
resampled channel values are floating-point convolutions that no claim
depends on; the pixel payload is modelled as an opaque zero fill of the
correct length. -/
def resize (img : Image) (nwidth nheight : ℕ) : Image :=
  let dims := resize_dimensions img.width img.height nwidth nheight
  { width := dims.1, height := dims.2,
    data := List.replicate (dims.1 * dims.2) (0, 0, 0, 0) }

/-- Looking up one terminal cell (`renderer.rs` lines 283-291): the first
cell recorded at `(x, y)`, or a blank space when absent. -/
def cellLookup (cells : List Cell) (x y : ℕ) : Char :=
  match cells.find? (fun cell => cell.coordinates = (x, y)) with
  | some cell => cell.character
  | none => ' '

/-- The reconstructed text of row `y` (`renderer.rs` lines 281-293): one
character per column, missing cells rendered as a blank space. -/
def ttyLine (t : TTY) (y : ℕ) : List Char :=
  (List.range t.size.1).map (fun x => cellLookup t.cells x y)

/-- All reconstructed rows, top to bottom. -/
def ttyLines (t : TTY) : List (List Char) :=
  (List.range t.size.2).map (ttyLine t)

/-- The pattern occurs in `line` starting at index `i`. -/
def occursAt (pat line : List Char) (i : ℕ) : Bool :=
  pat.isPrefixOf (line.drop i)

/-- Rust `str::find`: index of the first occurrence of `pat` in the line,
or `none`. The source returns a byte offset and converts it to a character
count; because UTF-8 is self-synchronizing, the first byte-level occurrence
of a (valid UTF-8) pattern in a string of characters starts on a character
boundary, so the search is modelled directly at character granularity. -/
def findSub (pat : List Char) : List Char → Option ℕ
  | [] => if pat.isPrefixOf ([] : List Char) then some 0 else none
  | c :: rest =>
    if pat.isPrefixOf (c :: rest) then some 0
    else (findSub pat rest).map (· + 1)

/-- Scan rows top to bottom for the first row containing the pattern,
returning `(column, row)` of the match's start. -/
def findInLines (pat : List Char) : List (List Char) → Option (ℕ × ℕ)
  | [] => none
  | line :: rest =>
    match findSub pat line with
    | some x => some (x, 0)
    | none => (findInLines pat rest).map (fun p => (p.1, p.2 + 1))

/-- `Plugin::find_text_coordinates` (`renderer.rs` lines 278-313):
reconstruct every row of the terminal and return the `(column, row)` of the
first (top-most row, then left-most) occurrence of the pattern, or `none`. -/
def find_text_coordinates (t : TTY) (regexish : String) : Option (ℕ × ℕ) :=
  findInLines regexish.data (ttyLines t)

/-- The coordinates of a `w × h` pixel block anchored at `(x0, y0)`,
enumerated in the source's emission order (rows outer, columns inner). -/
def blockCoords (x0 y0 w h : ℕ) : List (ℕ × ℕ) :=
  (List.range h).flatMap (fun j => (List.range w).map (fun i => (x0 + i, y0 + j)))

/-- `Plugin::render_emote` (`renderer.rs` lines 240-276): locate the
pattern, resize the emote's bitmap to the pattern's byte length by the
terminal's row count, and emit one pixel per resized-image pixel at
`(emote_x + pixel_x, emote_y + pixel_y)` where `emote_x = match_x` and
`emote_y = match_y * 2 - height / 2` in u32 arithmetic. The source's u32
subtraction wraps on underflow in release builds (and panics in debug
builds); it is embedded as the explicit wrap
`(2 * match_y + (U32_MOD - half)) % U32_MOD`, and the additions that form
pixel coordinates likewise reduce modulo `U32_MOD`. Channel values are the
8-bit values divided by 255, with full opacity. -/
def render_emote (t : TTY) (emote : ActiveEmote) : List Pixel :=
  match find_text_coordinates t emote.regexish with
  | none => []
  | some (match_x, match_y) =>
    let emote_resized := resize emote.image emote.regexish.utf8ByteSize t.size.2
    let half_the_emote_height := emote_resized.height / 2
    let emote_x := match_x
    let emote_y := (2 * match_y + (U32_MOD - half_the_emote_height)) % U32_MOD
    (List.range emote_resized.height).flatMap (fun pixel_y =>
      (List.range emote_resized.width).map (fun pixel_x =>
        let c := get_pixel emote_resized pixel_x pixel_y
        { coordinates :=
            ((emote_x + pixel_x) % U32_MOD, (emote_y + pixel_y) % U32_MOD),
          color := ((c.1 : ℚ) / 255, (c.2.1 : ℚ) / 255, (c.2.2.1 : ℚ) / 255, 1) }))

/-- `Plugin::render_emotes` (`renderer.rs` lines 231-238): reset the output
and append every active emote's pixels in registry order. -/
def render_emotes (t : TTY) (emotes : List ActiveEmote) : List Pixel :=
  emotes.flatMap (render_emote t)

/-- `Plugin::cleanup` (`renderer.rs` lines 315-322): retain exactly the
emotes younger than ten seconds at instant `now`. -/
def cleanup (now : ℕ) (emotes : List ActiveEmote) : List ActiveEmote :=
  emotes.filter (fun emote => now - emote.timestamp < TTL_NANOSECONDS)

/-- `Plugin::render` (`renderer.rs` lines 219-229): skip entirely when the
terminal size has a zero component, otherwise expire stale emotes, composite
the remaining ones and emit one output frame (the source's `send_output`
writes `PluginOutputMessages::OutputPixels(output)` to stdout; the emitted
frame is the second component, `none` meaning nothing was written). -/
def render (now : ℕ) (p : Plugin) : Plugin × Option (List Pixel) :=
  if p.tty.size.1 = 0 ∨ p.tty.size.2 = 0 then (p, none)
  else
    let remaining := cleanup now p.active_emotes
    let out := render_emotes p.tty remaining
    ({ p with active_emotes := remaining, output := out }, some out)

/-- `Plugin::handle_tattoy_message` (`renderer.rs` lines 156-180).
`PTYUpdate` replaces the whole terminal snapshot. The source's `TTYResize`
arm is `todo!()` and its catch-all arm is `unreachable!()`; both macros
panic, aborting the plugin, and are embedded as `Except.error` carrying the
respective panic message. -/
def handle_tattoy_message (p : Plugin) :
    PluginInputMessages → Except String Plugin
  | .PTYUpdate size cells cursor =>
    .ok { p with tty := { size := size, cursor_position := cursor, cells := cells } }
  | .TTYResize => .error "not yet implemented"
  | .UnknownFutureVariant => .error "internal error: entered unreachable code"

/-- `Plugin::add_active_emote` (`renderer.rs` lines 188-206): resolve the
emote code in the catalog; on success fetch the image (the network call
`get_emote_image` is the `fetch` parameter) and append a new active emote
stamped `now`; an unresolved code is only logged. A fetch failure
propagates via `?`. -/
def add_active_emote (fetch : String → Except FetchError Image) (now : ℕ)
    (p : Plugin) (code regexish : String) : Except FetchError Plugin :=
  match p.global_emotes.lookup code with
  | some id =>
    match fetch id with
    | .ok image =>
      .ok { p with active_emotes :=
              p.active_emotes ++ [{ regexish := regexish, timestamp := now, image := image }] }
    | .error e => .error e
  | none => .ok p

/-- `Plugin::handle_bot_message` (`renderer.rs` lines 138-144). -/
def handle_bot_message (fetch : String → Except FetchError Image) (now : ℕ)
    (p : Plugin) (m : BotMessage) : Except FetchError Plugin :=
  add_active_emote fetch now p m.emote m.regexish

/-- One failure that ends the `Plugin::start` select loop: a fetch error
propagated by `?` out of `handle_bot_message`, or a panic from
`handle_tattoy_message`. -/
inductive LoopError where
  | fetch (e : FetchError)
  | panicked (msg : String)
deriving DecidableEq

/-- One wake-up of the `tokio::select!` in `Plugin::start`
(`renderer.rs` lines 77-89): exactly one of the three event sources. -/
inductive Event where
  | frame_tick
  | bot_message (m : BotMessage)
  | tattoy_message (m : PluginInputMessages)
deriving DecidableEq

/-- One iteration of the `Plugin::start` select loop at instant `now`:
a frame tick runs `render` (emitting an optional frame); a bot message runs
`handle_bot_message`, whose error is propagated by `?` and ends the loop;
a Tattoy message runs `handle_tattoy_message`, whose panic aborts. -/
def loopStep (fetch : String → Except FetchError Image) (now : ℕ)
    (p : Plugin) : Event → Except LoopError (Plugin × Option (List Pixel))
  | .frame_tick => .ok (render now p)
  | .bot_message m =>
    match handle_bot_message fetch now p m with
    | .ok p' => .ok (p', none)
    | .error e => .error (.fetch e)
  | .tattoy_message m =>
    match handle_tattoy_message p m with
    | .ok p' => .ok (p', none)
    | .error msg => .error (.panicked msg)

/-- The `Plugin::start` loop run over a sequence of timestamped events,
collecting the emitted frames; the first `loopStep` failure ends the loop
(in the source, `?` makes `start` return the error and `main` exits). -/
def runLoop (fetch : String → Except FetchError Image) (p : Plugin) :
    List (ℕ × Event) → Except LoopError (Plugin × List (List Pixel))
  | [] => .ok (p, [])
  | (now, ev) :: rest =>
    match loopStep fetch now p ev with
    | .error e => .error e
    | .ok (p', none) => runLoop fetch p' rest
    | .ok (p', some frame) =>
      match runLoop fetch p' rest with
      | .error e => .error e
      | .ok (pEnd, frames) => .ok (pEnd, frame :: frames)

/-- `listen_for_tattoy_messages` (`main.rs` lines 25-35) over a list of
stdin lines, with `serde_json::from_str` as the `decode` parameter: each
line is decoded and forwarded; a decode failure propagates via `?`, ending
the reader thread. Returns the forwarded messages and the terminating
error, if any. -/
def listen_for_tattoy_messages
    (decode : String → Except DecodeError PluginInputMessages) :
    List String → List PluginInputMessages × Option DecodeError
  | [] => ([], none)
  | line :: rest =>
    match decode line with
    | .error e => ([], some e)
    | .ok m =>
      match listen_for_tattoy_messages decode rest with
      | (ms, err) => (m :: ms, err)

/-- The per-connection read loop of `Plugin::bot_listener`
(`renderer.rs` lines 107-132) over a list of received lines: an empty
buffer means the bot disconnected (normal stop); otherwise the line is
decoded and forwarded, and a decode failure propagates via `?` out of
`bot_listener`, crashing the whole listener task. -/
def bot_listener (decode : String → Except DecodeError BotMessage) :
    List String → List BotMessage × Option DecodeError
  | [] => ([], none)
  | line :: rest =>
    if line = "" then ([], none)
    else
      match decode line with
      | .error e => ([], some e)
      | .ok m =>
        match bot_listener decode rest with
        | (ms, err) => (m :: ms, err)

/-- The timing state of the `Plugin::start` loop: the monotonic clock and
`last_frame_tick`, in microseconds, and the instants at which frames were
emitted. The control loop is a single task, so while one branch's handler
is being awaited the clock advances without any other branch running. -/
structure SchedulerState where
  clock : ℕ
  last_frame_tick : ℕ
  frames : List ℕ
deriving DecidableEq

/-- `Plugin::sleep_until_next_frame_tick` (`renderer.rs` lines 147-154):
wait until `last_frame_tick + 1000000 / 30` microseconds if that instant is
still in the future, then stamp `last_frame_tick` with the new now. -/
def sleep_until_next_frame_tick (s : SchedulerState) : SchedulerState :=
  let target := ONE_MICROSECOND / TARGET_FRAME_RATE
  let tick_time := max s.clock (s.last_frame_tick + target)
  { s with clock := tick_time, last_frame_tick := tick_time }

/-- One completed select-branch of the loop, as timing events: a frame tick
(render time is negligible next to the frame budget and is modelled as 0),
or a bot message whose handling awaits `get_emote_image` inline for
`duration` microseconds. -/
inductive SchedulerEvent where
  | frame_tick
  | bot_message_fetch (duration : ℕ)
deriving DecidableEq

/-- The timing effect of handling one select-branch to completion. The
source awaits `handle_bot_message` (and therefore the whole network fetch)
inside the loop body, so during a fetch the clock advances by the fetch
duration and no frame is emitted. -/
def scheduler_step (s : SchedulerState) : SchedulerEvent → SchedulerState
  | .frame_tick =>
    let s' := sleep_until_next_frame_tick s
    { s' with frames := s'.frames ++ [s'.clock] }
  | .bot_message_fetch duration => { s with clock := s.clock + duration }

/-- The timing model of the whole loop over a sequence of handled events. -/
def run_scheduler (s : SchedulerState) (events : List SchedulerEvent) :
    SchedulerState :=
  events.foldl scheduler_step s

/-! Concrete inputs used by witnesses and counterexamples. -/

/-- A 112 x 112 bitmap, the size of a Twitch `3.0` static emote. -/
def img112 : Image :=
  { width := 112, height := 112, data := List.replicate 12544 (9, 9, 9, 9) }

/-- A small square 4 x 4 bitmap. -/
def img4 : Image :=
  { width := 4, height := 4, data := List.replicate 16 (10, 20, 30, 40) }

/-- A 2-column, 2-row terminal showing the text `hi` on its top row. -/
def ttyTop : TTY :=
  { size := (2, 2), cursor_position := (0, 0),
    cells := [{ coordinates := (0, 0), character := 'h' },
              { coordinates := (1, 0), character := 'i' }] }

/-- A 2-column, 2-row terminal showing the text `hi` on its second row. -/
def ttyRow1 : TTY :=
  { size := (2, 2), cursor_position := (0, 0),
    cells := [{ coordinates := (0, 1), character := 'h' },
              { coordinates := (1, 1), character := 'i' }] }

/-- An active emote looking for the pattern `hi`, created at instant 0. -/
def emoteHi : ActiveEmote :=
  { regexish := "hi", timestamp := 0, image := img4 }

/-- An 11-column, 1-row terminal whose only row reads `hello world`. -/
def helloWorldTTY : TTY :=
  { size := (11, 1), cursor_position := (0, 0),
    cells := [{ coordinates := (0, 0), character := 'h' },
              { coordinates := (1, 0), character := 'e' },
              { coordinates := (2, 0), character := 'l' },
              { coordinates := (3, 0), character := 'l' },
              { coordinates := (4, 0), character := 'o' },
              { coordinates := (5, 0), character := ' ' },
              { coordinates := (6, 0), character := 'w' },
              { coordinates := (7, 0), character := 'o' },
              { coordinates := (8, 0), character := 'r' },
              { coordinates := (9, 0), character := 'l' },
              { coordinates := (10, 0), character := 'd' }] }

/-- A freshly constructed plugin (`Plugin::new`) whose catalog resolves the
emote code `LUL`. -/
def pluginLUL : Plugin :=
  { tty := { size := (0, 0), cursor_position := (0, 0), cells := [] },
    global_emotes := [("LUL", "425618")],
    active_emotes := [], output := [], last_frame_tick := 0 }

/-- A bot notification whose emote code resolves in `pluginLUL`'s catalog. -/
def botMsgLUL : BotMessage :=
  { username := "tom", regexish := "nightly", emote := "LUL" }

/-- A fetch (`get_emote_image`) whose network request always fails. -/
def failingFetch : String → Except FetchError Image :=
  fun _ => .error .requestFailed

/-- A host-protocol line decoder that accepts exactly the line `good`. -/
def decodeHostExample : String → Except DecodeError PluginInputMessages :=
  fun line =>
    if line = "good" then .ok (.PTYUpdate (1, 1) [] (0, 0)) else .error .malformed

/-- A bot-protocol line decoder that accepts exactly the line `good`. -/
def decodeBotExample : String → Except DecodeError BotMessage :=
  fun line =>
    if line = "good" then .ok botMsgLUL else .error .malformed

/-- A plugin with a zero-sized terminal and one active emote that is already
ten seconds old at instant `TTL_NANOSECONDS`. -/
def pluginStale : Plugin :=
  { tty := { size := (0, 0), cursor_position := (0, 0), cells := [] },
    global_emotes := [], active_emotes := [emoteHi], output := [],
    last_frame_tick := 0 }

/-- A plugin with a live terminal (the `hi` row-1 snapshot) and one young
active emote. -/
def pluginLive : Plugin :=
  { tty := ttyRow1, global_emotes := [], active_emotes := [emoteHi],
    output := [], last_frame_tick := 0 }

/-! Theorems. -/

/-- C1: for every inbound host message that is not a terminal update, the
source does not ignore the message: the `TTYResize` arm runs `todo!()` and
the catch-all arm for unknown variants runs `unreachable!()`, both of which
panic and abort the plugin, contradicting the source's own attribute comment
that new message kinds must be handled without crashing. Handling is never
a state-preserving no-op (`Except.ok`). -/
theorem handle_tattoy_message_panics_on_non_update (p : Plugin) :
    handle_tattoy_message p .TTYResize = .error "not yet implemented" ∧
    handle_tattoy_message p .UnknownFutureVariant =
      .error "internal error: entered unreachable code" ∧
    (∀ q : Plugin, handle_tattoy_message p .TTYResize ≠ .ok q) ∧
    (∀ q : Plugin, handle_tattoy_message p .UnknownFutureVariant ≠ .ok q) := by
  refine ⟨rfl, rfl, ?_, ?_⟩ <;> intro q h <;> simp [handle_tattoy_message] at h

/-- C8: whenever the terminal size has a zero component, a frame tick's
`render` is a no-op that emits no output frame. -/
theorem render_skips_on_zero_size (now : ℕ) (p : Plugin)
    (h : p.tty.size.1 = 0 ∨ p.tty.size.2 = 0) :
    render now p = (p, none) := by
  unfold render
  rw [if_pos h]

/-- Witness for C8 at the terminal size `(0, 0)` of a fresh plugin. -/
theorem render_skips_on_zero_size_witness :
    (pluginLUL.tty.size.1 = 0 ∨ pluginLUL.tty.size.2 = 0) ∧
    render 0 pluginLUL = (pluginLUL, none) :=
  ⟨Or.inl rfl, render_skips_on_zero_size 0 pluginLUL (Or.inl rfl)⟩

/-- C6: `cleanup now` (the registry's `expire(now)`) retains an emote of the
registry exactly when its age is under ten seconds, and removes it exactly
when its age is at least ten seconds. -/
theorem cleanup_removes_exactly_expired (now : ℕ) (emotes : List ActiveEmote)
    (e : ActiveEmote) (h : e ∈ emotes) :
    (e ∈ cleanup now emotes ↔ now - e.timestamp < TTL_NANOSECONDS) ∧
    (e ∉ cleanup now emotes ↔ TTL_NANOSECONDS ≤ now - e.timestamp) := by
  have hm : e ∈ cleanup now emotes ↔ now - e.timestamp < TTL_NANOSECONDS := by
    simp [cleanup, List.mem_filter, h]
  exact ⟨hm, by rw [hm, not_lt]⟩

/-- Witness for C6 on a one-emote registry at instant 5. -/
theorem cleanup_removes_exactly_expired_witness :
    emoteHi ∈ [emoteHi] ∧
    ((emoteHi ∈ cleanup 5 [emoteHi] ↔ 5 - emoteHi.timestamp < TTL_NANOSECONDS) ∧
     (emoteHi ∉ cleanup 5 [emoteHi] ↔ TTL_NANOSECONDS ≤ 5 - emoteHi.timestamp)) :=
  ⟨List.mem_singleton.mpr rfl,
    cleanup_removes_exactly_expired 5 [emoteHi] emoteHi (List.mem_singleton.mpr rfl)⟩

/-- C9 counterexample: on a frame tick with terminal size `(0, 0)` the
source returns before `cleanup` runs, so a ten-second-old emote survives the
tick, contradicting the claim that expiry runs before the zero-size skip. -/
theorem render_zero_size_keeps_stale_emote_cex :
    pluginStale.tty.size = (0, 0) ∧
    (render TTL_NANOSECONDS pluginStale).1.active_emotes = [emoteHi] ∧
    TTL_NANOSECONDS ≤ TTL_NANOSECONDS - emoteHi.timestamp := by
  refine ⟨rfl, rfl, ?_⟩
  simp [emoteHi]

/-- C9 amended: the zero-size check runs first, leaving the whole plugin
state (stale emotes included) untouched on zero-size ticks; on every tick
with a nonzero terminal size, the registry after `render` holds no emote of
age at least ten seconds. -/
theorem render_expires_only_when_size_nonzero (now : ℕ) (p : Plugin) :
    ((p.tty.size.1 = 0 ∨ p.tty.size.2 = 0) → (render now p).1 = p) ∧
    (p.tty.size.1 ≠ 0 → p.tty.size.2 ≠ 0 →
      ∀ e ∈ (render now p).1.active_emotes,
        now - e.timestamp < TTL_NANOSECONDS) := by
  constructor
  · intro h
    unfold render
    rw [if_pos h]
  · intro h1 h2 e he
    unfold render at he
    rw [if_neg (by tauto)] at he
    simp only at he
    simpa using (List.mem_filter.mp he).2

/-- Witness for C9's amended claim on a live terminal with one young emote. -/
theorem render_expires_only_when_size_nonzero_witness :
    pluginLive.tty.size.1 ≠ 0 ∧ pluginLive.tty.size.2 ≠ 0 ∧
    emoteHi ∈ (render 5 pluginLive).1.active_emotes ∧
    5 - emoteHi.timestamp < TTL_NANOSECONDS :=
  ⟨by decide, by decide, by decide,
    (render_expires_only_when_size_nonzero 5 pluginLive).2 (by decide) (by decide)
      emoteHi (by decide)⟩

/-- C2 counterexample: a notification whose emote code resolves but whose
image fetch fails is not merely dropped — the error propagates out of the
select loop, so the run ends in an error and the subsequent frame tick is
never processed. -/
theorem fetch_failure_ends_loop_cex :
    pluginLUL.global_emotes.lookup botMsgLUL.emote = some "425618" ∧
    runLoop failingFetch pluginLUL
        [(0, .bot_message botMsgLUL), (33333, .frame_tick)] =
      .error (.fetch .requestFailed) :=
  ⟨rfl, rfl⟩

/-- C2 amended: when a notification's emote code resolves and its image
fetch or decode fails, the error propagates via `?` out of
`handle_bot_message`, terminating the event loop (`start` returns the
error); no further notifications or frame ticks are processed. -/
theorem fetch_failure_ends_loop (fetch : String → Except FetchError Image)
    (p : Plugin) (m : BotMessage) (id : String) (e : FetchError) (now : ℕ)
    (rest : List (ℕ × Event))
    (hid : p.global_emotes.lookup m.emote = some id)
    (hfetch : fetch id = .error e) :
    runLoop fetch p ((now, .bot_message m) :: rest) = .error (.fetch e) := by
  simp [runLoop, loopStep, handle_bot_message, add_active_emote, hid, hfetch]

/-- Witness for C2's amended claim with an always-failing fetch. -/
theorem fetch_failure_ends_loop_witness :
    pluginLUL.global_emotes.lookup botMsgLUL.emote = some "425618" ∧
    failingFetch "425618" = .error .requestFailed ∧
    runLoop failingFetch pluginLUL [(7, .bot_message botMsgLUL)] =
      .error (.fetch .requestFailed) :=
  ⟨rfl, rfl,
    fetch_failure_ends_loop failingFetch pluginLUL botMsgLUL "425618"
      .requestFailed 7 [] rfl rfl⟩

/-- C4 counterexample: a malformed line is not skipped. A line that decodes
fine on its own (`good`) is forwarded when it arrives first, but after a
malformed line the loop has already terminated with the decode error and
forwards nothing, for both the stdin reader and the bot listener. -/
theorem malformed_line_ends_listener_cex :
    listen_for_tattoy_messages decodeHostExample ["good"] =
      ([.PTYUpdate (1, 1) [] (0, 0)], none) ∧
    listen_for_tattoy_messages decodeHostExample ["bad", "good"] =
      ([], some .malformed) ∧
    bot_listener decodeBotExample ["good"] = ([botMsgLUL], none) ∧
    bot_listener decodeBotExample ["bad", "good"] = ([], some .malformed) :=
  ⟨rfl, rfl, rfl, rfl⟩

/-- C4 amended: a malformed line makes the decode error propagate via `?`,
terminating the receiving loop: nothing is forwarded from that line on, and
the remaining lines are never decoded. (The render loop itself keeps
running; only the producer task dies.) -/
theorem malformed_line_ends_listener :
    (∀ (decode : String → Except DecodeError PluginInputMessages)
        (e : DecodeError) (line : String) (rest : List String),
        decode line = .error e →
        listen_for_tattoy_messages decode (line :: rest) = ([], some e)) ∧
    (∀ (decode : String → Except DecodeError BotMessage)
        (e : DecodeError) (line : String) (rest : List String),
        line ≠ "" → decode line = .error e →
        bot_listener decode (line :: rest) = ([], some e)) := by
  constructor
  · intro decode e line rest h
    simp [listen_for_tattoy_messages, h]
  · intro decode e line rest hne h
    simp [bot_listener, hne, h]

/-- Witness for C4's amended claim on a malformed first line. -/
theorem malformed_line_ends_listener_witness :
    decodeHostExample "bad" = .error .malformed ∧
    listen_for_tattoy_messages decodeHostExample ["bad", "x"] =
      ([], some .malformed) :=
  ⟨rfl, malformed_line_ends_listener.1 decodeHostExample .malformed "bad" ["x"] rfl⟩

/-- Handling any select-branch never moves the monotonic clock backwards. -/
theorem scheduler_step_clock_le (s : SchedulerState) (ev : SchedulerEvent) :
    s.clock ≤ (scheduler_step s ev).clock := by
  cases ev with
  | frame_tick =>
    simp only [scheduler_step, sleep_until_next_frame_tick]
    exact le_max_left _ _
  | bot_message_fetch d =>
    simp only [scheduler_step]
    exact Nat.le_add_right _ _

/-- The clock never moves backwards over a whole run. -/
theorem run_scheduler_clock_le (s : SchedulerState)
    (events : List SchedulerEvent) :
    s.clock ≤ (run_scheduler s events).clock := by
  induction events generalizing s with
  | nil => exact le_rfl
  | cons ev rest ih =>
    exact le_trans (scheduler_step_clock_le s ev) (ih (scheduler_step s ev))

/-- Every frame time present after a run was already present before it or
was emitted no earlier than the run's starting clock. -/
theorem run_scheduler_frames_new_ge (events : List SchedulerEvent)
    (s : SchedulerState) (t : ℕ)
    (ht : t ∈ (run_scheduler s events).frames) :
    t ∈ s.frames ∨ s.clock ≤ t := by
  induction events generalizing s with
  | nil => exact Or.inl ht
  | cons ev rest ih =>
    rcases ih (scheduler_step s ev) ht with hin | hge
    · cases ev with
      | frame_tick =>
        simp only [scheduler_step, sleep_until_next_frame_tick,
          List.mem_append, List.mem_singleton] at hin
        rcases hin with hold | hnew
        · exact Or.inl hold
        · exact Or.inr (hnew ▸ le_max_left _ _)
      | bot_message_fetch d => exact Or.inl hin
    · exact Or.inr (le_trans (scheduler_step_clock_le s ev) hge)

/-- If every recorded frame time is at most the clock, that stays true over
any run. -/
theorem run_scheduler_frames_le_clock (events : List SchedulerEvent)
    (s : SchedulerState) (h : ∀ t ∈ s.frames, t ≤ s.clock) :
    ∀ t ∈ (run_scheduler s events).frames, t ≤ (run_scheduler s events).clock := by
  induction events generalizing s with
  | nil => exact h
  | cons ev rest ih =>
    refine ih (scheduler_step s ev) ?_
    intro t ht
    cases ev with
    | frame_tick =>
      simp only [scheduler_step, sleep_until_next_frame_tick,
        List.mem_append, List.mem_singleton] at ht ⊢
      rcases ht with hold | hnew
      · exact le_trans (h t hold) (le_max_left _ _)
      · exact le_of_eq hnew
    | bot_message_fetch d =>
      simp only [scheduler_step] at ht ⊢
      exact le_trans (h t ht) (Nat.le_add_right _ _)

/-- C10 counterexample: with a one-second fetch between two ticks, the run
emits frames at 33333 and 1033333 microseconds only — no frame at all fires
while the fetch is outstanding, and the inter-frame gap is a full second,
thirty times the 33333-microsecond frame budget, refuting the claim that
frame ticks continue to fire concurrently with an outstanding fetch. -/
theorem fetch_stalls_frames_cex :
    ONE_MICROSECOND / TARGET_FRAME_RATE = 33333 ∧
    (run_scheduler { clock := 0, last_frame_tick := 0, frames := [] }
        [.frame_tick, .bot_message_fetch 1000000, .frame_tick]).frames =
      [33333, 1033333] ∧
    (∀ t ∈ [33333, 1033333], ¬(33333 < t ∧ t < 1033333)) := by
  refine ⟨rfl, rfl, by decide⟩

/-- C10 amended: `handle_bot_message` (and with it the whole image fetch) is
awaited inline on the event loop's only task, so an outstanding fetch stalls
the frame cadence entirely: around any fetch of duration `d`, every emitted
frame either predates the fetch's start or waits for its completion — no
frame is emitted while the fetch is outstanding. -/
theorem fetch_awaited_inline_stalls_frames (s : SchedulerState)
    (pre post : List SchedulerEvent) (d : ℕ)
    (hinv : ∀ t ∈ s.frames, t ≤ s.clock) (t : ℕ)
    (ht : t ∈ (run_scheduler s (pre ++ .bot_message_fetch d :: post)).frames) :
    t ≤ (run_scheduler s pre).clock ∨ (run_scheduler s pre).clock + d ≤ t := by
  have hsplit : run_scheduler s (pre ++ .bot_message_fetch d :: post) =
      run_scheduler (scheduler_step (run_scheduler s pre) (.bot_message_fetch d))
        post := by
    simp [run_scheduler, List.foldl_append]
  rw [hsplit] at ht
  rcases run_scheduler_frames_new_ge post _ t ht with hin | hge
  · exact Or.inl (run_scheduler_frames_le_clock pre s hinv t hin)
  · exact Or.inr hge

/-- Witness for C10's amended claim: the second frame of the
counterexample run indeed waits for the fetch to complete. -/
theorem fetch_awaited_inline_stalls_frames_witness :
    1033333 ∈ (run_scheduler { clock := 0, last_frame_tick := 0, frames := [] }
        ([SchedulerEvent.frame_tick] ++
          SchedulerEvent.bot_message_fetch 1000000 :: [SchedulerEvent.frame_tick])).frames ∧
    (1033333 ≤ (run_scheduler { clock := 0, last_frame_tick := 0, frames := [] }
        [SchedulerEvent.frame_tick]).clock ∨
      (run_scheduler { clock := 0, last_frame_tick := 0, frames := [] }
        [SchedulerEvent.frame_tick]).clock + 1000000 ≤ 1033333) :=
  ⟨by decide,
    fetch_awaited_inline_stalls_frames
      { clock := 0, last_frame_tick := 0, frames := [] }
      [SchedulerEvent.frame_tick] [SchedulerEvent.frame_tick] 1000000
      (by decide) 1033333 (by decide)⟩

/-- Rounding a natural number returns it unchanged. -/
theorem rustRound_natCast (n : ℕ) : rustRound (n : ℚ) = (n : ℤ) := by
  rw [rustRound, show ((n : ℚ) = ((n : ℤ) : ℚ)) from by push_cast; ring,
    Int.floor_int_add]
  norm_num

/-- Rounding is bounded by any natural-number upper bound of the argument. -/
theorem rustRound_le_natCast (q : ℚ) (n : ℕ) (hq : q ≤ (n : ℚ)) :
    rustRound q ≤ (n : ℤ) := by
  have h2 : (⌊(n : ℚ) + 1 / 2⌋ : ℤ) = (n : ℤ) := by
    rw [show ((n : ℚ) = ((n : ℤ) : ℚ)) from by push_cast; ring, Int.floor_int_add]
    norm_num
  calc rustRound q = ⌊q + 1 / 2⌋ := rfl
    _ ≤ ⌊(n : ℚ) + 1 / 2⌋ := Int.floor_le_floor (by linarith)
    _ = (n : ℤ) := h2

/-- When the width ratio is the smaller one, the scaled width is exact. -/
theorem resize_nw_eq (w h nw nh : ℕ) (hw : 0 < w) (hnw : 0 < nw)
    (hcmp : (nw : ℚ) / (w : ℚ) ≤ (nh : ℚ) / (h : ℚ)) :
    resize_nw w h nw nh = (nw : ℤ) := by
  have hwne : ((w : ℚ)) ≠ 0 := ne_of_gt (by exact_mod_cast hw)
  have hmul : (w : ℚ) * ((nw : ℚ) / (w : ℚ)) = (nw : ℚ) := by field_simp
  rw [resize_nw, resize_ratio, min_eq_left hcmp, hmul, rustRound_natCast]
  exact max_eq_left (by exact_mod_cast hnw)

/-- When the width ratio is the smaller one, the scaled height stays within
the requested height. -/
theorem resize_nh_le (w h nw nh : ℕ) (hh : 0 < h) (hnh : 0 < nh)
    (hcmp : (nw : ℚ) / (w : ℚ) ≤ (nh : ℚ) / (h : ℚ)) :
    resize_nh w h nw nh ≤ (nh : ℤ) := by
  have hhq : (0 : ℚ) < (h : ℚ) := by exact_mod_cast hh
  have hb : (h : ℚ) * ((nw : ℚ) / (w : ℚ)) ≤ (nh : ℚ) := by
    have h2 : (h : ℚ) * ((nw : ℚ) / (w : ℚ)) ≤ (h : ℚ) * ((nh : ℚ) / (h : ℚ)) :=
      mul_le_mul_of_nonneg_left hcmp (le_of_lt hhq)
    have h3 : (h : ℚ) * ((nh : ℚ) / (h : ℚ)) = (nh : ℚ) := by field_simp
    linarith
  rw [resize_nh, resize_ratio, min_eq_left hcmp]
  exact max_le (rustRound_le_natCast _ _ hb) (by exact_mod_cast hnh)

/-- When the height ratio is the smaller one, the scaled height is exact. -/
theorem resize_nh_eq (w h nw nh : ℕ) (hh : 0 < h) (hnh : 0 < nh)
    (hcmp : (nh : ℚ) / (h : ℚ) ≤ (nw : ℚ) / (w : ℚ)) :
    resize_nh w h nw nh = (nh : ℤ) := by
  have hhne : ((h : ℚ)) ≠ 0 := ne_of_gt (by exact_mod_cast hh)
  have hmul : (h : ℚ) * ((nh : ℚ) / (h : ℚ)) = (nh : ℚ) := by field_simp
  rw [resize_nh, resize_ratio, min_eq_right hcmp, hmul, rustRound_natCast]
  exact max_eq_left (by exact_mod_cast hnh)

/-- When the height ratio is the smaller one, the scaled width stays within
the requested width. -/
theorem resize_nw_le (w h nw nh : ℕ) (hw : 0 < w) (hnw : 0 < nw)
    (hcmp : (nh : ℚ) / (h : ℚ) ≤ (nw : ℚ) / (w : ℚ)) :
    resize_nw w h nw nh ≤ (nw : ℤ) := by
  have hwq : (0 : ℚ) < (w : ℚ) := by exact_mod_cast hw
  have hb : (w : ℚ) * ((nh : ℚ) / (h : ℚ)) ≤ (nw : ℚ) := by
    have h2 : (w : ℚ) * ((nh : ℚ) / (h : ℚ)) ≤ (w : ℚ) * ((nw : ℚ) / (w : ℚ)) :=
      mul_le_mul_of_nonneg_left hcmp (le_of_lt hwq)
    have h3 : (w : ℚ) * ((nw : ℚ) / (w : ℚ)) = (nw : ℚ) := by field_simp
    linarith
  rw [resize_nw, resize_ratio, min_eq_right hcmp]
  exact max_le (rustRound_le_natCast _ _ hb) (by exact_mod_cast hnw)

/-- Evaluation of the resize dimension computation on a 112 x 112 source at
target box (7, 40): the aspect-preserving fit is (7, 7). -/
theorem resize_dimensions_112_112_7_40 :
    resize_dimensions 112 112 7 40 = (7, 7) := by
  norm_num [resize_dimensions, resize_nw, resize_nh, resize_ratio, rustRound,
    U32_MAX, min_def, max_def]
  decide

/-- Evaluation of the resize dimension computation on a 4 x 4 source at
target box (2, 2): the fit is (2, 2). -/
theorem resize_dimensions_4_4_2_2 : resize_dimensions 4 4 2 2 = (2, 2) := by
  norm_num [resize_dimensions, resize_nw, resize_nh, resize_ratio, rustRound,
    U32_MAX, min_def, max_def]
  decide

/-- Evaluation of `resize` on the concrete 4 x 4 bitmap at target box
(2, 2). -/
theorem resize_img4_2_2 : resize img4 2 2 =
    { width := 2, height := 2, data := List.replicate 4 (0, 0, 0, 0) } := by
  show ({ width := (resize_dimensions 4 4 2 2).1,
          height := (resize_dimensions 4 4 2 2).2,
          data := List.replicate
            ((resize_dimensions 4 4 2 2).1 * (resize_dimensions 4 4 2 2).2)
            (0, 0, 0, 0) } : Image) = _
  rw [resize_dimensions_4_4_2_2]
  rfl

/-- C3 counterexample: resizing a 112 x 112 emote bitmap for a pattern of
length 7 in a terminal of 40 rows yields dimensions (7, 7), not (7, 40):
`image::DynamicImage::resize` preserves aspect ratio. -/
theorem resize_not_exact_cex :
    img112.width = 112 ∧ img112.height = 112 ∧
    ((resize img112 7 40).width, (resize img112 7 40).height) = (7, 7) ∧
    ((7 : ℕ), (7 : ℕ)) ≠ ((7 : ℕ), (40 : ℕ)) := by
  refine ⟨rfl, rfl, ?_, by decide⟩
  have h1 : (resize img112 7 40).width = 7 := by
    show (resize_dimensions 112 112 7 40).1 = 7
    rw [resize_dimensions_112_112_7_40]
  have h2 : (resize img112 7 40).height = 7 := by
    show (resize_dimensions 112 112 7 40).2 = 7
    rw [resize_dimensions_112_112_7_40]
  rw [h1, h2]

/-- C3 amended: resizing an emote bitmap of positive dimensions for a
pattern of length W (positive, at most u32::MAX) in a terminal with H rows
(likewise) yields the aspect-ratio-preserving inscribed fit: one read-back
dimension equals its target and the other is at most its target, so the
result is exactly (W, H) only when the aspect ratios coincide. -/
theorem resize_fits_box (img : Image) (nw nh : ℕ)
    (hw : 0 < img.width) (hh : 0 < img.height) (hnw : 0 < nw) (hnh : 0 < nh)
    (hnwM : nw ≤ U32_MAX) (hnhM : nh ≤ U32_MAX) :
    ((resize img nw nh).width = nw ∧ (resize img nw nh).height ≤ nh) ∨
    ((resize img nw nh).height = nh ∧ (resize img nw nh).width ≤ nw) := by
  rcases le_total ((nw : ℚ) / (img.width : ℚ)) ((nh : ℚ) / (img.height : ℚ))
    with hcmp | hcmp
  · left
    have h1 := resize_nw_eq img.width img.height nw nh hw hnw hcmp
    have h2 := resize_nh_le img.width img.height nw nh hh hnh hcmp
    have hb1 : ¬((U32_MAX : ℤ) < resize_nw img.width img.height nw nh) := by
      rw [h1]; exact not_lt.mpr (by exact_mod_cast hnwM)
    have hb2 : ¬((U32_MAX : ℤ) < resize_nh img.width img.height nw nh) :=
      not_lt.mpr (le_trans h2 (by exact_mod_cast hnhM))
    constructor
    · show (resize_dimensions img.width img.height nw nh).1 = nw
      rw [resize_dimensions, if_neg hb1, if_neg hb2, h1]
      exact Int.toNat_natCast nw
    · show (resize_dimensions img.width img.height nw nh).2 ≤ nh
      rw [resize_dimensions, if_neg hb1, if_neg hb2]
      exact Int.toNat_le.mpr h2
  · right
    have h1 := resize_nh_eq img.width img.height nw nh hh hnh hcmp
    have h2 := resize_nw_le img.width img.height nw nh hw hnw hcmp
    have hb1 : ¬((U32_MAX : ℤ) < resize_nw img.width img.height nw nh) :=
      not_lt.mpr (le_trans h2 (by exact_mod_cast hnwM))
    have hb2 : ¬((U32_MAX : ℤ) < resize_nh img.width img.height nw nh) := by
      rw [h1]; exact not_lt.mpr (by exact_mod_cast hnhM)
    constructor
    · show (resize_dimensions img.width img.height nw nh).2 = nh
      rw [resize_dimensions, if_neg hb1, if_neg hb2, h1]
      exact Int.toNat_natCast nh
    · show (resize_dimensions img.width img.height nw nh).1 ≤ nw
      rw [resize_dimensions, if_neg hb1, if_neg hb2]
      exact Int.toNat_le.mpr h2

/-- Witness for C3's amended claim on the 112 x 112 bitmap. -/
theorem resize_fits_box_witness :
    (0 < img112.width ∧ 0 < img112.height) ∧
    (((resize img112 7 40).width = 7 ∧ (resize img112 7 40).height ≤ 40) ∨
      ((resize img112 7 40).height = 40 ∧ (resize img112 7 40).width ≤ 7)) :=
  ⟨⟨by decide, by decide⟩,
    resize_fits_box img112 7 40 (by decide) (by decide) (by decide) (by decide)
      (by decide) (by decide)⟩

/-- C5 counterexample: with the pattern `hi` shown on the terminal's top
row, the match is at row 0 and the resized emote has height 2, so the
source's `match_y * 2 - height / 2` computes `0 - 1` in u32: the subtraction
underflows at a reachable match, and the emitted top block row sits at the
wrapped y-coordinate 4294967295 rather than at a vertically-centered
anchor. -/
theorem render_emote_underflow_cex :
    find_text_coordinates ttyTop "hi" = some (0, 0) ∧
    (resize emoteHi.image ("hi" : String).utf8ByteSize ttyTop.size.2).height = 2 ∧
    2 * 0 < (resize emoteHi.image ("hi" : String).utf8ByteSize ttyTop.size.2).height / 2 ∧
    (render_emote ttyTop emoteHi).map (fun p => p.coordinates) =
      [(0, 4294967295), (1, 4294967295), (0, 0), (1, 0)] := by
  have hfind : find_text_coordinates ttyTop "hi" = some (0, 0) := by decide
  have hres : resize emoteHi.image ("hi" : String).utf8ByteSize ttyTop.size.2 =
      { width := 2, height := 2, data := List.replicate 4 (0, 0, 0, 0) } := by
    show resize img4 2 2 = _
    exact resize_img4_2_2
  refine ⟨hfind, by rw [hres], by rw [hres]; decide, ?_⟩
  unfold render_emote
  rw [show emoteHi.regexish = "hi" from rfl] at *
  rw [hfind]
  simp only
  rw [hres]
  decide

/-- C5 amended: when the match row and resized height satisfy
`height / 2 ≤ 2 * match_y` (no u32 underflow — in particular for every match
low enough on screen) and the block fits in u32 range, the emitted pixel
block is exactly the `width x height` block anchored at `x = match_x`,
`y = 2 * match_y - height / 2`; for matches with `2 * match_y < height / 2`
the subtraction underflows (see the counterexample), so the claimed anchor
holds exactly when the guard does. -/
theorem render_emote_anchor (t : TTY) (em : ActiveEmote) (mx my : ℕ)
    (hfind : find_text_coordinates t em.regexish = some (mx, my))
    (hu : (resize em.image em.regexish.utf8ByteSize t.size.2).height / 2 ≤ 2 * my)
    (hx : mx + (resize em.image em.regexish.utf8ByteSize t.size.2).width ≤ U32_MAX)
    (hy : 2 * my + (resize em.image em.regexish.utf8ByteSize t.size.2).height ≤ U32_MAX) :
    (render_emote t em).map (fun p => p.coordinates) =
      blockCoords mx
        (2 * my - (resize em.image em.regexish.utf8ByteSize t.size.2).height / 2)
        (resize em.image em.regexish.utf8ByteSize t.size.2).width
        (resize em.image em.regexish.utf8ByteSize t.size.2).height := by
  unfold render_emote
  rw [hfind]
  simp only
  rw [List.map_flatMap, blockCoords]
  apply List.flatMap_congr
  intro py hpy
  rw [List.map_map]
  apply List.map_congr_left
  intro px hpx
  rw [List.mem_range] at hpy hpx
  simp only [Function.comp]
  have hw := (resize em.image em.regexish.utf8ByteSize t.size.2).width
  have hhalf : (resize em.image em.regexish.utf8ByteSize t.size.2).height / 2 ≤
      (resize em.image em.regexish.utf8ByteSize t.size.2).height := Nat.div_le_self _ _
  have hey : (2 * my + (U32_MOD -
      (resize em.image em.regexish.utf8ByteSize t.size.2).height / 2)) % U32_MOD =
      2 * my - (resize em.image em.regexish.utf8ByteSize t.size.2).height / 2 := by
    simp only [U32_MOD, U32_MAX] at hx hy ⊢
    omega
  rw [hey]
  have h1 : (mx + px) % U32_MOD = mx + px := by
    simp only [U32_MOD, U32_MAX] at hx hy ⊢
    omega
  have h2 : (2 * my - (resize em.image em.regexish.utf8ByteSize t.size.2).height / 2 + py)
      % U32_MOD =
      2 * my - (resize em.image em.regexish.utf8ByteSize t.size.2).height / 2 + py := by
    simp only [U32_MOD, U32_MAX] at hx hy ⊢
    omega
  rw [h1, h2]


/-- Witness for C5's amended claim: the `hi` pattern on row 1 anchors the
2 x 2 block at `x = 0`, `y = 2 * 1 - 1 = 1`. -/
theorem render_emote_anchor_witness :
    find_text_coordinates ttyRow1 emoteHi.regexish = some (0, 1) ∧
    (render_emote ttyRow1 emoteHi).map (fun p => p.coordinates) =
      blockCoords 0
        (2 * 1 -
          (resize emoteHi.image emoteHi.regexish.utf8ByteSize ttyRow1.size.2).height / 2)
        (resize emoteHi.image emoteHi.regexish.utf8ByteSize ttyRow1.size.2).width
        (resize emoteHi.image emoteHi.regexish.utf8ByteSize ttyRow1.size.2).height :=
  ⟨by decide,
    render_emote_anchor ttyRow1 emoteHi 0 1 (by decide)
      (by show (resize img4 2 2).height / 2 ≤ 2 * 1
          rw [resize_img4_2_2]
          decide)
      (by show 0 + (resize img4 2 2).width ≤ U32_MAX
          rw [resize_img4_2_2]
          decide)
      (by show 2 * 1 + (resize img4 2 2).height ≤ U32_MAX
          rw [resize_img4_2_2]
          decide)⟩

/-- An occurrence at index 0 is a prefix match. -/
theorem occursAt_zero (pat l : List Char) : occursAt pat l 0 = pat.isPrefixOf l :=
  rfl

/-- Occurrences shift across a cons cell. -/
theorem occursAt_succ (pat : List Char) (c : Char) (rest : List Char) (j : ℕ) :
    occursAt pat (c :: rest) (j + 1) = occursAt pat rest j :=
  rfl

/-- Every occurrence index behaves alike on the empty line. -/
theorem occursAt_nil (pat : List Char) (i : ℕ) :
    occursAt pat [] i = pat.isPrefixOf ([] : List Char) := by
  cases i <;> rfl

/-- `findSub` returns nothing exactly when the pattern occurs nowhere. -/
theorem findSub_none_iff (pat l : List Char) :
    findSub pat l = none ↔ ∀ i, occursAt pat l i = false := by
  induction l with
  | nil =>
    have hdef : findSub pat ([] : List Char) =
        if pat.isPrefixOf ([] : List Char) then some 0 else none := rfl
    rw [hdef]
    cases hp : pat.isPrefixOf ([] : List Char) with
    | false =>
      simp only [hp, Bool.false_eq_true, if_false]
      constructor
      · intro _ i
        rw [occursAt_nil, hp]
      · intro _
        trivial
    | true =>
      simp only [hp, if_true]
      constructor
      · intro h
        exact absurd h (by simp)
      · intro h
        have h0 := h 0
        rw [occursAt_nil, hp] at h0
        exact absurd h0 (by simp)
  | cons c rest ih =>
    have hdef : findSub pat (c :: rest) =
        if pat.isPrefixOf (c :: rest) then some 0
        else (findSub pat rest).map (· + 1) := rfl
    rw [hdef]
    cases hp : pat.isPrefixOf (c :: rest) with
    | true =>
      simp only [hp, if_true]
      constructor
      · intro h
        exact absurd h (by simp)
      · intro h
        have h0 := h 0
        rw [occursAt_zero, hp] at h0
        exact absurd h0 (by simp)
    | false =>
      simp only [hp, Bool.false_eq_true, if_false]
      constructor
      · intro h i
        have hrest : findSub pat rest = none := by
          cases hfr : findSub pat rest with
          | none => rfl
          | some x0 => rw [hfr] at h; exact absurd h (by simp)
        cases i with
        | zero => rw [occursAt_zero, hp]
        | succ n => rw [occursAt_succ]; exact ih.mp hrest n
      · intro h
        have hrest : findSub pat rest = none :=
          ih.mpr (fun n => by have hn := h (n + 1); rwa [occursAt_succ] at hn)
        rw [hrest]
        rfl

/-- `findSub` returns exactly the least occurrence index of the pattern. -/
theorem findSub_some_iff (pat l : List Char) (i : ℕ) :
    findSub pat l = some i ↔
      occursAt pat l i = true ∧ ∀ j < i, occursAt pat l j = false := by
  induction l generalizing i with
  | nil =>
    have hdef : findSub pat ([] : List Char) =
        if pat.isPrefixOf ([] : List Char) then some 0 else none := rfl
    rw [hdef]
    cases hp : pat.isPrefixOf ([] : List Char) with
    | false =>
      simp only [hp, Bool.false_eq_true, if_false]
      constructor
      · intro h
        exact absurd h (by simp)
      · rintro ⟨h1, -⟩
        rw [occursAt_nil, hp] at h1
        exact absurd h1 (by simp)
    | true =>
      simp only [hp, if_true]
      constructor
      · intro h
        obtain rfl : i = 0 := (Option.some.inj h).symm
        exact ⟨by rw [occursAt_nil, hp], fun j hj => absurd hj (by omega)⟩
      · rintro ⟨h1, h2⟩
        cases i with
        | zero => rfl
        | succ n =>
          have h0 := h2 0 (by omega)
          rw [occursAt_nil, hp] at h0
          exact absurd h0 (by simp)
  | cons c rest ih =>
    have hdef : findSub pat (c :: rest) =
        if pat.isPrefixOf (c :: rest) then some 0
        else (findSub pat rest).map (· + 1) := rfl
    rw [hdef]
    cases hp : pat.isPrefixOf (c :: rest) with
    | true =>
      simp only [hp, if_true]
      constructor
      · intro h
        obtain rfl : i = 0 := (Option.some.inj h).symm
        exact ⟨by rw [occursAt_zero, hp], fun j hj => absurd hj (by omega)⟩
      · rintro ⟨h1, h2⟩
        cases i with
        | zero => rfl
        | succ n =>
          have h0 := h2 0 (by omega)
          rw [occursAt_zero, hp] at h0
          exact absurd h0 (by simp)
    | false =>
      simp only [hp, Bool.false_eq_true, if_false]
      cases hfr : findSub pat rest with
      | none =>
        constructor
        · intro h
          exact absurd h (by simp)
        · rintro ⟨h1, -⟩
          cases i with
          | zero =>
            rw [occursAt_zero, hp] at h1
            exact absurd h1 (by simp)
          | succ n =>
            rw [occursAt_succ] at h1
            rw [(findSub_none_iff pat rest).mp hfr n] at h1
            exact absurd h1 (by simp)
      | some x0 =>
        constructor
        · intro h
          obtain rfl : i = x0 + 1 := (Option.some.inj h).symm
          obtain ⟨ho, hmin⟩ := (ih x0).mp hfr
          refine ⟨by rw [occursAt_succ]; exact ho, ?_⟩
          intro j hj
          cases j with
          | zero => rw [occursAt_zero, hp]
          | succ m => rw [occursAt_succ]; exact hmin m (by omega)
        · rintro ⟨h1, h2⟩
          cases i with
          | zero =>
            rw [occursAt_zero, hp] at h1
            exact absurd h1 (by simp)
          | succ n =>
            rw [occursAt_succ] at h1
            have hmin : ∀ m < n, occursAt pat rest m = false := by
              intro m hm
              have hm2 := h2 (m + 1) (by omega)
              rwa [occursAt_succ] at hm2
            have hsome : findSub pat rest = some n := (ih n).mpr ⟨h1, hmin⟩
            rw [hfr] at hsome
            obtain rfl : x0 = n := Option.some.inj hsome
            rfl

/-- `findInLines` returns nothing exactly when no row matches. -/
theorem findInLines_none_iff (pat : List Char) (lines : List (List Char)) :
    findInLines pat lines = none ↔
      ∀ y < lines.length, findSub pat (lines.getD y []) = none := by
  induction lines with
  | nil => simp [findInLines]
  | cons l rest ih =>
    have hdef : findInLines pat (l :: rest) =
        match findSub pat l with
        | some x => some (x, 0)
        | none => (findInLines pat rest).map (fun p => (p.1, p.2 + 1)) := rfl
    rw [hdef]
    cases hfs : findSub pat l with
    | some x0 =>
      dsimp only
      constructor
      · intro h
        exact absurd h (by simp)
      · intro h
        have h0 := h 0 (by simp)
        rw [List.getD_cons_zero, hfs] at h0
        exact absurd h0 (by simp)
    | none =>
      dsimp only
      constructor
      · intro h y hy
        have hrest : findInLines pat rest = none := by
          cases hfr : findInLines pat rest with
          | none => rfl
          | some p => rw [hfr] at h; exact absurd h (by simp)
        cases y with
        | zero => rw [List.getD_cons_zero]; exact hfs
        | succ n =>
          rw [List.getD_cons_succ]
          rw [List.length_cons] at hy
          exact ih.mp hrest n (by omega)
      · intro h
        have hrest : findInLines pat rest = none :=
          ih.mpr (fun n hn => by
            have hn2 := h (n + 1) (by rw [List.length_cons]; omega)
            rwa [List.getD_cons_succ] at hn2)
        rw [hrest]
        rfl

/-- `findInLines` returns exactly the top-most matching row paired with its
least occurrence column. -/
theorem findInLines_some_iff (pat : List Char) (lines : List (List Char))
    (x y : ℕ) :
    findInLines pat lines = some (x, y) ↔
      y < lines.length ∧ findSub pat (lines.getD y []) = some x ∧
      ∀ y' < y, findSub pat (lines.getD y' []) = none := by
  induction lines generalizing y with
  | nil => simp [findInLines]
  | cons l rest ih =>
    have hdef : findInLines pat (l :: rest) =
        match findSub pat l with
        | some x => some (x, 0)
        | none => (findInLines pat rest).map (fun p => (p.1, p.2 + 1)) := rfl
    rw [hdef]
    cases hfs : findSub pat l with
    | some x0 =>
      dsimp only
      constructor
      · intro h
        have hxy := Option.some.inj h
        rw [Prod.mk.injEq] at hxy
        obtain ⟨h1, h2⟩ := hxy
        subst h1
        subst h2
        refine ⟨by rw [List.length_cons]; omega, ?_, ?_⟩
        · rw [List.getD_cons_zero, hfs]
        · intro y' hy'
          exact absurd hy' (by omega)
      · rintro ⟨hy, hsub, hmin⟩
        cases y with
        | zero =>
          rw [List.getD_cons_zero, hfs] at hsub
          obtain rfl : x0 = x := Option.some.inj hsub
          rfl
        | succ n =>
          have h0 := hmin 0 (by omega)
          rw [List.getD_cons_zero, hfs] at h0
          exact absurd h0 (by simp)
    | none =>
      cases hfr : findInLines pat rest with
      | none =>
        dsimp only
        constructor
        · intro h
          exact absurd h (by simp)
        · rintro ⟨hy, hsub, hmin⟩
          cases y with
          | zero =>
            rw [List.getD_cons_zero, hfs] at hsub
            exact absurd hsub (by simp)
          | succ n =>
            rw [List.getD_cons_succ] at hsub
            rw [List.length_cons] at hy
            rw [(findInLines_none_iff pat rest).mp hfr n (by omega)] at hsub
            exact absurd hsub (by simp)
      | some p =>
        obtain ⟨px, py⟩ := p
        dsimp only
        constructor
        · intro h
          have hxy := Option.some.inj h
          rw [Prod.mk.injEq] at hxy
          obtain ⟨h1, h2⟩ := hxy
          subst h1
          subst h2
          obtain ⟨ha, hb, hc⟩ := (ih py).mp hfr
          refine ⟨by rw [List.length_cons]; omega, ?_, ?_⟩
          · rw [List.getD_cons_succ]; exact hb
          · intro y' hy'
            cases y' with
            | zero => rw [List.getD_cons_zero]; exact hfs
            | succ m => rw [List.getD_cons_succ]; exact hc m (by omega)
        · rintro ⟨hy, hsub, hmin⟩
          cases y with
          | zero =>
            rw [List.getD_cons_zero, hfs] at hsub
            exact absurd hsub (by simp)
          | succ n =>
            rw [List.getD_cons_succ] at hsub
            have hmin2 : ∀ m < n, findSub pat (rest.getD m []) = none := by
              intro m hm
              have hm2 := hmin (m + 1) (by omega)
              rwa [List.getD_cons_succ] at hm2
            rw [List.length_cons] at hy
            have hres : findInLines pat rest = some (x, n) :=
              (ih n).mpr ⟨by omega, hsub, hmin2⟩
            rw [hfr] at hres
            have hxy := Option.some.inj hres
            rw [Prod.mk.injEq] at hxy
            obtain ⟨h1, h2⟩ := hxy
            subst h1
            subst h2
            rfl

/-- The reconstructed snapshot has one line per terminal row. -/
theorem ttyLines_length (t : TTY) : (ttyLines t).length = t.size.2 := by
  simp [ttyLines]

/-- Indexing the reconstructed snapshot yields the row's reconstruction. -/
theorem ttyLines_getD (t : TTY) (y : ℕ) (h : y < t.size.2) :
    (ttyLines t).getD y [] = ttyLine t y := by
  simp [ttyLines, List.getD_eq_getElem?_getD, List.getElem?_map,
    List.getElem?_range h]

/-- C7: `find_text_coordinates` returns the top-most row whose reconstructed
text (missing cells rendered as a blank space) contains the pattern,
paired with the column of the left-most match start in that row; it returns
nothing exactly when no row contains the pattern; and on the snapshot
`hello world` with pattern `world` it returns (column 6, row 0). -/
theorem find_text_coordinates_locates_first_match :
    (∀ (t : TTY) (pat : String) (x y : ℕ),
        find_text_coordinates t pat = some (x, y) →
          y < t.size.2 ∧ occursAt pat.data (ttyLine t y) x = true ∧
          (∀ y' < y, ∀ i, occursAt pat.data (ttyLine t y') i = false) ∧
          (∀ x' < x, occursAt pat.data (ttyLine t y) x' = false)) ∧
    (∀ (t : TTY) (pat : String),
        find_text_coordinates t pat = none →
          ∀ y < t.size.2, ∀ i, occursAt pat.data (ttyLine t y) i = false) ∧
    find_text_coordinates helloWorldTTY "world" = some (6, 0) := by
  refine ⟨?_, ?_, by decide⟩
  · intro t pat x y h
    rw [find_text_coordinates, findInLines_some_iff] at h
    obtain ⟨hy, hsub, hprev⟩ := h
    rw [ttyLines_length] at hy
    rw [ttyLines_getD t y hy] at hsub
    rw [findSub_some_iff] at hsub
    refine ⟨hy, hsub.1, ?_, hsub.2⟩
    intro y' hy' i
    have h2 := hprev y' hy'
    rw [ttyLines_getD t y' (lt_trans hy' hy), findSub_none_iff] at h2
    exact h2 i
  · intro t pat h y hy i
    rw [find_text_coordinates, findInLines_none_iff] at h
    have h2 := h y (by rw [ttyLines_length]; exact hy)
    rw [ttyLines_getD t y hy, findSub_none_iff] at h2
    exact h2 i

/-- Witness for C7 on the `hello world` snapshot. -/
theorem find_text_coordinates_locates_first_match_witness :
    find_text_coordinates helloWorldTTY "world" = some (6, 0) ∧
    occursAt "world".data (ttyLine helloWorldTTY 0) 6 = true :=
  ⟨by decide,
    (find_text_coordinates_locates_first_match.1 helloWorldTTY "world" 6 0
      (by decide)).2.1⟩

end TattoyPlugin
